import Mathlib

/-!
# Verification of the gers-platform host↔guest memory interop subsystem

A shallow embedding, in Lean 4, of the parts of the `gers-platform`
repository that its specification talks about:

* `src/gers_api/src/bump.rs` — the `BumpAllocator` (bump/arena allocator
  carved out of a self-aligned `RawBlock`), its `align_up` helper, the
  `align_word` default-alignment helper, `alloc`, `alloc_aligned`,
  `reset`, `initialize` and the explicit uninitialized state.
* `src/gers_app/src/main.rs` — the per-plugin event-dispatch phase of a
  lockstep tick (reset hook, alloc hook, null/deref/transmute checks,
  payload write, event-update hook).
* `src/gers_events/src/lib.rs` and `src/gers_core/src/lib.rs` — the
  `EventType` tag decoding and the guest-side `__gers_event_update` hook.

Machine integers (`usize` on the 64-bit target the crate's own tests run
on) are modelled as `Nat` with explicit wrap-around modulo `2^64` at every
arithmetic operation where Rust release-mode semantics wraps.
-/

namespace Gers

/-- Number of values of `usize` on the modelled 64-bit target (`2^64`). -/
def W : Nat := 2 ^ 64

/-- Wrapping addition of two `usize` values (Rust release-mode `a + b`). -/
def wadd (a b : Nat) : Nat := (a + b) % W

/-- Wrapping subtraction of two `usize` values (Rust release-mode `a - b`):
for `a, b < W` this is `(a + W - b) % W`, the two's-complement difference. -/
def wsub (a b : Nat) : Nat := (a + (W - b % W)) % W

/-- Bitwise NOT of a `usize` value (Rust `!x`).  Complementing every one of
the 64 bits of `x < W` yields `(W - 1) - x`; the `% W` reduces an
out-of-range argument first, as the hardware register would hold it. -/
def wnot (x : Nat) : Nat := (W - 1) - x % W

/-- `align_up` from `src/gers_api/src/bump.rs`:
`(addr + align - 1) & !(align - 1)`, each `+`/`-` wrapping as `usize`. -/
def align_up (addr align : Nat) : Nat :=
  wsub (wadd addr align) 1 &&& wnot (wsub align 1)

/-- `align_word` from `src/gers_api/src/bump.rs`: one machine word
(8 bytes on the modelled 64-bit target) for values at most a word,
two machine words for larger values. -/
def align_word (size : Nat) : Nat :=
  let word := 8
  if size > word then word * 2 else word

/-- `is_power_of_two` for `usize` (Rust `usize::is_power_of_two`):
true exactly when the value has a single set bit. -/
def is_power_of_two (n : Nat) : Bool :=
  n != 0 && (n &&& (n - 1)) == 0

/-! ## Arithmetic facts about the wrapped operations -/

theorem W_pos : 0 < W := by decide

theorem wadd_exact {a b : Nat} (h : a + b < W) : wadd a b = a + b :=
  Nat.mod_eq_of_lt h

theorem wsub_exact {x b : Nat} (hbx : b ≤ x) (hxb : x - b < W) (hb : b < W) :
    wsub (x % W) b = x - b := by
  unfold wsub
  rw [Nat.mod_eq_of_lt hb]
  rw [Nat.mod_add_mod]
  have h2 : x + (W - b) = (x - b) + W := by omega
  rw [h2, Nat.add_mod_right, Nat.mod_eq_of_lt hxb]

/-- Masking a `usize` value with `W - 2^k` (the bitwise complement of
`2^k - 1`) rounds it down to a multiple of `2^k`. -/
theorem land_high_mask {x k : Nat} (hx : x < W) (hk : k ≤ 64) :
    x &&& (W - 2 ^ k) = x / 2 ^ k * 2 ^ k := by
  have hW : W = 2 ^ 64 := rfl
  have hmask : W - 2 ^ k = (2 ^ (64 - k) - 1) <<< k := by
    rw [hW, Nat.shiftLeft_eq, Nat.sub_mul, ← pow_add, one_mul]
    rw [Nat.sub_add_cancel hk]
  have hres : x / 2 ^ k * 2 ^ k = (x >>> k) <<< k := by
    rw [Nat.shiftLeft_eq, Nat.shiftRight_eq_div_pow]
  rw [hmask, hres]
  apply Nat.eq_of_testBit_eq
  intro i
  rw [Nat.testBit_land, Nat.testBit_shiftLeft, Nat.testBit_shiftLeft]
  by_cases hik : k ≤ i
  · by_cases hiw : i < 64
    · have h1 : (2 ^ (64 - k) - 1).testBit (i - k) = true := by
        rw [Nat.testBit_two_pow_sub_one]
        simp only [decide_eq_true_eq]
        omega
      have h2 : (x >>> k).testBit (i - k) = x.testBit i := by
        rw [Nat.testBit_shiftRight]
        congr 1
        omega
      rw [Nat.shiftRight_eq_div_pow] at h2
      simp [hik, h1, h2]
    · have h1 : (2 ^ (64 - k) - 1).testBit (i - k) = false := by
        rw [Nat.testBit_two_pow_sub_one]
        simp only [decide_eq_false_iff_not]
        omega
      have h2 : x.testBit i = false := by
        apply Nat.testBit_lt_two_pow
        calc x < W := hx
        _ = 2 ^ 64 := rfl
        _ ≤ 2 ^ i := Nat.pow_le_pow_right (by omega) (by omega)
      have h3 : k + (i - k) = i := by omega
      simp [h1, h2, h3]
  · simp [hik]

/-- For a power-of-two alignment and no address-space wrap-around,
`align_up` computes exact (unwrapped) rounding up to a multiple of the
alignment. -/
theorem align_up_pow2 {addr k : Nat} (hk : k ≤ 64) (h : addr + 2 ^ k ≤ W) :
    align_up addr (2 ^ k) = (addr + 2 ^ k - 1) / 2 ^ k * 2 ^ k := by
  have hpk : 0 < 2 ^ k := Nat.pos_pow_of_pos k (by omega)
  have hkW : 2 ^ k ≤ W := Nat.pow_le_pow_right (by omega) hk
  have hsub1 : wsub (2 ^ k) 1 = 2 ^ k - 1 := by
    unfold wsub
    have h1 : (1 : Nat) % W = 1 := by decide
    rw [h1]
    have h2 : 2 ^ k + (W - 1) = (2 ^ k - 1) + W := by omega
    rw [h2, Nat.add_mod_right, Nat.mod_eq_of_lt (by omega)]
  have hnot : wnot (2 ^ k - 1) = W - 2 ^ k := by
    unfold wnot
    rw [Nat.mod_eq_of_lt (by omega)]
    omega
  have hfst : wsub (wadd addr (2 ^ k)) 1 = addr + 2 ^ k - 1 := by
    unfold wadd
    exact wsub_exact (by omega) (by omega) (by decide)
  unfold align_up
  rw [hsub1, hnot, hfst]
  exact land_high_mask (by omega) hk

/-- Rounding up to a multiple of `a` does not go below the address. -/
theorem alignTarget_ge {addr a : Nat} (ha : 0 < a) :
    addr ≤ (addr + a - 1) / a * a := by
  have hdm := Nat.div_add_mod (addr + a - 1) a
  have hml : (addr + a - 1) % a < a := Nat.mod_lt _ ha
  rw [Nat.mul_comm]
  omega

/-- Rounding up to a multiple of `a` moves the address by less than `a`. -/
theorem alignTarget_le {addr a : Nat} :
    (addr + a - 1) / a * a ≤ addr + a - 1 :=
  Nat.div_mul_le_self _ _

/-- The rounded-up address is a multiple of the alignment. -/
theorem alignTarget_dvd (addr a : Nat) : a ∣ (addr + a - 1) / a * a :=
  Dvd.intro_left _ rfl

/-- The rounded-up address is the *smallest* multiple of `a` at or
after `addr`. -/
theorem alignTarget_min {addr a q : Nat} (ha : 0 < a) (hq : a ∣ q)
    (hge : addr ≤ q) : (addr + a - 1) / a * a ≤ q := by
  obtain ⟨m, rfl⟩ := hq
  have h1 : addr + a - 1 ≤ a * m + (a - 1) := by omega
  have h2 : (addr + a - 1) / a ≤ (a * m + (a - 1)) / a :=
    Nat.div_le_div_right h1
  have h3 : (a * m + (a - 1)) / a = m := by
    rw [Nat.mul_add_div ha, Nat.div_eq_of_lt (by omega)]
    omega
  calc (addr + a - 1) / a * a ≤ m * a := by
        apply Nat.mul_le_mul_right
        omega
  _ = a * m := Nat.mul_comm m a

/-! ## The `RawBlock` and `BumpAllocator` data model (`bump.rs`) -/

/-- `BLOCK_SIZE` from `bump.rs`: `1 << 12` = 4 KB. -/
def BLOCK_SIZE : Nat := 1 <<< 12

/-- `RawBlock` from `bump.rs`: an owned memory region, recorded as its
base address (`ptr`, the value of `NonNull<u8>` as `usize`) and `size`.
The live block produced by `RawBlock::new(size)` is allocated with
alignment equal to `size`, so `ptr % size = 0` for a live block. -/
structure RawBlock where
  ptr : Nat
  size : Nat
deriving Repr, DecidableEq

/-- `RawBlock::dangling()`: `NonNull::dangling()` for `u8` is address 1,
with size 0. -/
def RawBlock.dangling : RawBlock := { ptr := 1, size := 0 }

/-- `BumpError` from `bump.rs`. -/
inductive BumpError where
  | BadRequest
  | OutOfMemory
  | NoSpace
  | Uninitialized
deriving Repr, DecidableEq

instance {ε α : Type} [DecidableEq ε] [DecidableEq α] :
    DecidableEq (Except ε α) := fun x y =>
  match x, y with
  | .ok a, .ok b =>
      if h : a = b then .isTrue (h ▸ rfl)
      else .isFalse (fun hc => h (Except.ok.inj hc))
  | .error e, .error f =>
      if h : e = f then .isTrue (h ▸ rfl)
      else .isFalse (fun hc => h (Except.error.inj hc))
  | .ok _, .error _ => .isFalse (fun hc => Except.noConfusion hc)
  | .error _, .ok _ => .isFalse (fun hc => Except.noConfusion hc)

/-- `BumpAllocator` from `bump.rs` (the field name `initialzed` keeps the
source's spelling). -/
structure BumpAllocator where
  cursor : Nat
  block : RawBlock
  initialzed : Bool
deriving Repr, DecidableEq

/-- `BumpAllocator::MAX_SIZE = BLOCK_SIZE`. -/
def BumpAllocator.MAX_SIZE : Nat := BLOCK_SIZE

/-- The state built by `BumpAllocator::new()` / `initialize()` when the
underlying system allocation succeeds and returns base address `base`
(the base is nondeterministic; `RawBlock::new(BLOCK_SIZE)` guarantees it
is `BLOCK_SIZE`-aligned, nonnull, and that the block fits in the address
space). -/
def BumpAllocator.fresh (base : Nat) : BumpAllocator :=
  { cursor := 0, block := { ptr := base, size := BLOCK_SIZE }, initialzed := true }

/-- A base address the system allocator could actually return for a
`BLOCK_SIZE`-aligned, `BLOCK_SIZE`-byte live block. -/
def ValidBase (base : Nat) : Prop :=
  base % BLOCK_SIZE = 0 ∧ 0 < base ∧ base + BLOCK_SIZE ≤ W

/-- `BumpAllocator::uninit()`: dangling block, not initialized. -/
def BumpAllocator.uninit : BumpAllocator :=
  { cursor := 0, block := RawBlock.dangling, initialzed := false }

/-- `BumpAllocator::initialize()` on the success path (the Rust name is a
reserved word here, hence `initBlock`): the whole state is overwritten
with a fresh block at the (nondeterministic) new base.  On the failure
path (`RawBlock::new` erroring) the function returns early and the state
is unchanged, which is modelled by simply not taking this transition. -/
def BumpAllocator.initBlock (_a : BumpAllocator) (base : Nat) : BumpAllocator :=
  BumpAllocator.fresh base

/-- `BumpAllocator::alloc(size, align)` from `bump.rs`, as a function from
the pre-state to the returned `Result` (the address inside the returned
`RawPtr`) and the post-state:

```text
if !self.initialzed { return Err(Uninitialized); }
let aligned = align_up(self.block.ptr as usize + self.cursor, align);
let next = (aligned + size) - self.block.ptr as usize;
if next >= self.block.size { return Err(NoSpace); }
self.cursor = next;
Ok(RawPtr { ptr: aligned })
```

Every `usize` operation wraps modulo `W`. -/
def BumpAllocator.alloc (a : BumpAllocator) (size align : Nat) :
    Except BumpError Nat × BumpAllocator :=
  if a.initialzed = false then
    (.error .Uninitialized, a)
  else
    let aligned := align_up (wadd a.block.ptr a.cursor) align
    let next := wsub (wadd aligned size) a.block.ptr
    if a.block.size ≤ next then
      (.error .NoSpace, a)
    else
      (.ok aligned, { a with cursor := next })

/-- `BumpAllocator::alloc_aligned(size)`: delegates to `alloc` with the
default word alignment. -/
def BumpAllocator.alloc_aligned (a : BumpAllocator) (size : Nat) :
    Except BumpError Nat × BumpAllocator :=
  a.alloc size (align_word size)

/-- `BumpAllocator::reset()` from `bump.rs`. -/
def BumpAllocator.reset (a : BumpAllocator) :
    Except BumpError Unit × BumpAllocator :=
  if a.initialzed = false then
    (.error .Uninitialized, a)
  else
    (.ok (), { a with cursor := 0 })

/-! ## Exact characterization of `alloc` -/

/-- On an initialized allocator, with a power-of-two alignment and
requests that do not wrap the 64-bit address space, `alloc` computes with
exact (unwrapped) arithmetic: the candidate address is `base + cursor`
rounded up to a multiple of the alignment, and the allocation commits the
cursor to `(candidate + size) - base` exactly when that offset is strictly
below the block size. -/
theorem alloc_spec (a : BumpAllocator) (size k : Nat)
    (hinit : a.initialzed = true) (hk : k ≤ 64)
    (h1 : a.block.ptr + a.cursor + 2 ^ k ≤ W)
    (h2 : a.cursor + 2 ^ k + size ≤ W) :
    a.alloc size (2 ^ k) =
      if a.block.size ≤
          (a.block.ptr + a.cursor + 2 ^ k - 1) / 2 ^ k * 2 ^ k + size - a.block.ptr then
        (.error .NoSpace, a)
      else
        (.ok ((a.block.ptr + a.cursor + 2 ^ k - 1) / 2 ^ k * 2 ^ k),
         { a with cursor :=
             (a.block.ptr + a.cursor + 2 ^ k - 1) / 2 ^ k * 2 ^ k + size - a.block.ptr }) := by
  have hpk : 0 < 2 ^ k := Nat.pos_pow_of_pos k (by omega)
  have hge : a.block.ptr + a.cursor ≤
      (a.block.ptr + a.cursor + 2 ^ k - 1) / 2 ^ k * 2 ^ k := alignTarget_ge hpk
  have hle : (a.block.ptr + a.cursor + 2 ^ k - 1) / 2 ^ k * 2 ^ k ≤
      a.block.ptr + a.cursor + 2 ^ k - 1 := alignTarget_le
  unfold BumpAllocator.alloc
  rw [if_neg (by simp [hinit])]
  simp only []
  have hwadd : wadd a.block.ptr a.cursor = a.block.ptr + a.cursor :=
    wadd_exact (by omega)
  rw [hwadd, align_up_pow2 hk (by omega)]
  have hnext : wsub (wadd ((a.block.ptr + a.cursor + 2 ^ k - 1) / 2 ^ k * 2 ^ k) size)
      a.block.ptr =
      (a.block.ptr + a.cursor + 2 ^ k - 1) / 2 ^ k * 2 ^ k + size - a.block.ptr := by
    show wsub (((a.block.ptr + a.cursor + 2 ^ k - 1) / 2 ^ k * 2 ^ k + size) % W)
        a.block.ptr = _
    exact wsub_exact (by omega) (by omega) (by omega)
  rw [hnext]

/-- The aligned end of a requested allocation, as an offset from the block
base: the smallest multiple of `align` at or after `base + cursor`, plus
`size`, minus `base`. -/
def alignedEnd (a : BumpAllocator) (size align : Nat) : Nat :=
  (a.block.ptr + a.cursor + align - 1) / align * align + size - a.block.ptr

/-- C2: For every initialized `BumpAllocator` and every
`allocate(size, align)` request (power-of-two alignment, no address-space
overflow), the call fails with `NoSpace` exactly when the aligned end of
the requested allocation — aligned start plus size, as an offset from
base — is at or beyond `block.size`, and succeeds exactly when that
aligned end is strictly below `block.size`. -/
theorem alloc_noSpace_boundary (a : BumpAllocator) (size k : Nat)
    (hinit : a.initialzed = true) (hk : k ≤ 64)
    (h1 : a.block.ptr + a.cursor + 2 ^ k ≤ W)
    (h2 : a.cursor + 2 ^ k + size ≤ W) :
    ((a.alloc size (2 ^ k)).1 = .error .NoSpace ↔
      a.block.size ≤ alignedEnd a size (2 ^ k))
    ∧ ((∃ p, (a.alloc size (2 ^ k)).1 = .ok p) ↔
      alignedEnd a size (2 ^ k) < a.block.size) := by
  rw [alloc_spec a size k hinit hk h1 h2]
  unfold alignedEnd
  by_cases h : a.block.size ≤
      (a.block.ptr + a.cursor + 2 ^ k - 1) / 2 ^ k * 2 ^ k + size - a.block.ptr
  · rw [if_pos h]
    constructor
    · simp [h]
    · constructor
      · intro hex
        obtain ⟨p, hp⟩ := hex
        exact absurd hp (by simp)
      · intro hlt
        omega
  · rw [if_neg h]
    constructor
    · simp
      omega
    · constructor
      · intro _
        omega
      · intro _
        exact ⟨_, rfl⟩

/-- Witness for C2 at a concrete input: on a fresh allocator at base 4096,
`alloc 16 8` succeeds, and its aligned end 16 is strictly below 4096. -/
theorem alloc_noSpace_boundary_witness :
    (((BumpAllocator.fresh 4096).alloc 16 (2 ^ 3)).1 = .error .NoSpace ↔
      (BumpAllocator.fresh 4096).block.size ≤
        alignedEnd (BumpAllocator.fresh 4096) 16 (2 ^ 3))
    ∧ ((∃ p, ((BumpAllocator.fresh 4096).alloc 16 (2 ^ 3)).1 = .ok p) ↔
      alignedEnd (BumpAllocator.fresh 4096) 16 (2 ^ 3) <
        (BumpAllocator.fresh 4096).block.size) :=
  alloc_noSpace_boundary (BumpAllocator.fresh 4096) 16 3 rfl (by omega)
    (by decide) (by decide)

/-- C3: For every allocator state and every `allocate(size, align)` call
that returns an error of any kind, the allocator state — in particular the
cursor — is unchanged. -/
theorem alloc_error_unchanged (a : BumpAllocator) (size align : Nat)
    (e : BumpError) (herr : (a.alloc size align).1 = .error e) :
    (a.alloc size align).2 = a := by
  by_cases h1 : a.initialzed = false
  · simp [BumpAllocator.alloc, h1]
  · by_cases h2 : a.block.size ≤
        wsub (wadd (align_up (wadd a.block.ptr a.cursor) align) size) a.block.ptr
    · simp [BumpAllocator.alloc, h1, h2]
    · exfalso
      simp [BumpAllocator.alloc, h1, h2] at herr

/-- Witness for C3 at a concrete input: an uninitialized allocator errors
on `alloc 1 1` and is returned unchanged. -/
theorem alloc_error_unchanged_witness :
    (BumpAllocator.uninit.alloc 1 1).2 = BumpAllocator.uninit :=
  alloc_error_unchanged BumpAllocator.uninit 1 1 .Uninitialized rfl

/-- C4: On the allocator created by `BumpAllocator::uninit()` (on which
`initialize` was never called), every `alloc`, every `alloc_aligned` and
`reset` return the `Uninitialized` error and leave the state unchanged. -/
theorem uninit_ops_fail (size align : Nat) :
    BumpAllocator.uninit.alloc size align =
      (.error .Uninitialized, BumpAllocator.uninit)
    ∧ BumpAllocator.uninit.alloc_aligned size =
      (.error .Uninitialized, BumpAllocator.uninit)
    ∧ BumpAllocator.uninit.reset =
      (.error .Uninitialized, BumpAllocator.uninit) :=
  ⟨rfl, rfl, rfl⟩

/-! ## Offset determinism machinery (C1, C6) -/

/-- The mask used by `align_up` at a power-of-two alignment. -/
theorem align_up_mask {k : Nat} (hk : k ≤ 64) :
    wnot (wsub (2 ^ k) 1) = W - 2 ^ k := by
  have hkW : 2 ^ k ≤ W := Nat.pow_le_pow_right (by omega) hk
  have hpk : 0 < 2 ^ k := Nat.pos_pow_of_pos k (by omega)
  have hsub1 : wsub (2 ^ k) 1 = 2 ^ k - 1 := by
    unfold wsub
    have h1 : (1 : Nat) % W = 1 := by decide
    rw [h1]
    have h2 : 2 ^ k + (W - 1) = (2 ^ k - 1) + W := by omega
    rw [h2, Nat.add_mod_right, Nat.mod_eq_of_lt (by omega)]
  rw [hsub1]
  unfold wnot
  rw [Nat.mod_eq_of_lt (by omega)]
  omega

/-- The offsets (from base) returned by a sequence of `alloc` calls,
`none` marking a failed call. -/
def runAllocs : BumpAllocator → List (Nat × Nat) → List (Option Nat)
  | _, [] => []
  | a, (size, align) :: rest =>
    match a.alloc size align with
    | (.ok p, a') => some (p - a.block.ptr) :: runAllocs a' rest
    | (.error _, a') => none :: runAllocs a' rest

/-- The offset (from base) returned by a single `alloc` call, `none` on
failure. -/
def allocOffset (a : BumpAllocator) (size align : Nat) : Option Nat :=
  match a.alloc size align with
  | (.ok p, _) => some (p - a.block.ptr)
  | (.error _, _) => none

/-- An allocation request whose alignment is a power of two dividing
`BLOCK_SIZE` and whose size fits the address space. -/
def ValidReq (r : Nat × Nat) : Prop :=
  (∃ k, k ≤ 12 ∧ r.2 = 2 ^ k) ∧ r.1 + 2 * BLOCK_SIZE ≤ W

/-- On an initialized allocator with a live, `BLOCK_SIZE`-aligned block,
a `ValidReq` allocation behaves exactly as the base-independent
round-up-the-cursor rule: with `R` the cursor rounded up to a multiple of
the alignment, the call either fails with `NoSpace` (when `R + size`
reaches the block size) or returns address `base + R` and cursor
`R + size`.  This covers the corner where `base + cursor + align`
wraps the 64-bit address space (only possible at `base = W - BLOCK_SIZE`),
where the call always fails with `NoSpace`. -/
theorem alloc_step (base c size k : Nat) (hb : ValidBase base)
    (hk : k ≤ 12) (hc : c < BLOCK_SIZE) (hs : size + 2 * BLOCK_SIZE ≤ W) :
    BumpAllocator.alloc
        { cursor := c, block := { ptr := base, size := BLOCK_SIZE },
          initialzed := true } size (2 ^ k) =
      if BLOCK_SIZE ≤ (c + 2 ^ k - 1) / 2 ^ k * 2 ^ k + size then
        (.error .NoSpace,
         { cursor := c, block := { ptr := base, size := BLOCK_SIZE },
           initialzed := true })
      else
        (.ok (base + (c + 2 ^ k - 1) / 2 ^ k * 2 ^ k),
         { cursor := (c + 2 ^ k - 1) / 2 ^ k * 2 ^ k + size,
           block := { ptr := base, size := BLOCK_SIZE },
           initialzed := true }) := by
  obtain ⟨hmod, hpos, hfit⟩ := hb
  have hBS : BLOCK_SIZE = 4096 := by decide
  have hpk : 0 < 2 ^ k := Nat.pos_pow_of_pos k (by omega)
  have hk4096 : 2 ^ k ≤ 4096 := by
    calc 2 ^ k ≤ 2 ^ 12 := Nat.pow_le_pow_right (by omega) hk
    _ = 4096 := by norm_num
  have hdvd4096 : 2 ^ k ∣ 4096 := by
    have : (4096 : Nat) = 2 ^ 12 := by norm_num
    rw [this]
    exact pow_dvd_pow 2 hk
  have hdvdbase : 2 ^ k ∣ base := by
    apply dvd_trans hdvd4096
    exact Nat.dvd_of_mod_eq_zero (by rw [← hBS]; exact hmod)
  have hW : W = 18446744073709551616 := by decide
  by_cases hwrap : base + c + 2 ^ k ≤ W
  · -- no wrap-around: `alloc_spec` applies and the base factors out
    rw [alloc_spec _ _ _ rfl (by omega) (by simpa using hwrap)
      (by show c + 2 ^ k + size ≤ W; omega)]
    obtain ⟨m, hm⟩ := hdvdbase
    have hbc : base + c + 2 ^ k - 1 = base + (c + 2 ^ k - 1) := by omega
    have hdivpull : (base + (c + 2 ^ k - 1)) / 2 ^ k * 2 ^ k =
        base + (c + 2 ^ k - 1) / 2 ^ k * 2 ^ k := by
      rw [hm, Nat.mul_add_div hpk, Nat.add_mul, Nat.mul_comm]
    simp only [hbc, hdivpull]
    have hRge : c ≤ (c + 2 ^ k - 1) / 2 ^ k * 2 ^ k := alignTarget_ge hpk
    have hcancel : base + (c + 2 ^ k - 1) / 2 ^ k * 2 ^ k + size - base =
        (c + 2 ^ k - 1) / 2 ^ k * 2 ^ k + size := by omega
    rw [hcancel]
  · -- wrap-around at the very top of the address space: `NoSpace` on
    -- both sides of the equation
    have hbase_top : base = W - 4096 := by
      rw [hBS] at hc hfit
      have h1 : base % 4096 = 0 := by rw [hBS] at hmod; exact hmod
      omega
    have hc4 : c < 4096 := by rw [hBS] at hc; exact hc
    have hR4096 : (c + 2 ^ k - 1) / 2 ^ k * 2 ^ k = 4096 := by
      -- the round-up of the cursor is a multiple of `2^k` strictly
      -- between `4096 - 2^k` and `4094 + 2^k`, hence exactly 4096
      have hclow : 4096 - 2 ^ k < c := by omega
      have hge : c ≤ (c + 2 ^ k - 1) / 2 ^ k * 2 ^ k := alignTarget_ge hpk
      have hle : (c + 2 ^ k - 1) / 2 ^ k * 2 ^ k ≤ c + 2 ^ k - 1 :=
        alignTarget_le
      obtain ⟨m, hm⟩ : 2 ^ k ∣ (c + 2 ^ k - 1) / 2 ^ k * 2 ^ k :=
        alignTarget_dvd c (2 ^ k)
      obtain ⟨M, hM⟩ := hdvd4096
      rw [hm] at hge hle ⊢
      have hub : 2 ^ k * m ≤ 4094 + 2 ^ k := by omega
      have hlb : 4096 - 2 ^ k < 2 ^ k * m := by omega
      have hup : m ≤ M := by
        by_contra hcon
        have h1 : M + 1 ≤ m := by omega
        have h2 : 2 ^ k * (M + 1) ≤ 2 ^ k * m := Nat.mul_le_mul_left _ h1
        rw [Nat.mul_add, Nat.mul_one, ← hM] at h2
        omega
      have hdown : M ≤ m := by
        by_contra hcon
        have h1 : m + 1 ≤ M := by omega
        have h2 : 2 ^ k * (m + 1) ≤ 2 ^ k * M := Nat.mul_le_mul_left _ h1
        rw [Nat.mul_add, Nat.mul_one, ← hM] at h2
        omega
      have hmeq : m = M := by omega
      rw [hmeq, ← hM]
    rw [if_pos (by rw [hR4096, hBS]; omega)]
    -- now trace the wrapped computation in the code
    unfold BumpAllocator.alloc
    rw [if_neg (by simp)]
    simp only []
    have hcW : base + c < W := by rw [hW] at *; omega
    rw [wadd_exact hcW]
    have halign : align_up (base + c) (2 ^ k) = 0 := by
      unfold align_up
      rw [align_up_mask (by omega)]
      have hwa : wadd (base + c) (2 ^ k) = base + c + 2 ^ k - W := by
        unfold wadd
        rw [hW] at hwrap hfit ⊢
        rw [hBS] at hfit
        omega
      rw [hwa]
      have ht : base + c + 2 ^ k - W < 2 ^ k := by rw [hW] at *; omega
      have ht1 : 1 ≤ base + c + 2 ^ k - W := by rw [hW] at *; omega
      have hws : wsub (base + c + 2 ^ k - W) 1 = base + c + 2 ^ k - W - 1 := by
        have := wsub_exact (x := base + c + 2 ^ k - W) (b := 1)
          (by omega) (by rw [hW] at *; omega) (by rw [hW]; omega)
        rwa [Nat.mod_eq_of_lt (by rw [hW] at *; omega)] at this
      rw [hws, land_high_mask (by rw [hW] at *; omega) (by omega)]
      rw [Nat.div_eq_of_lt (by omega), Nat.zero_mul]
    rw [halign]
    have hsizeW : size < W := by rw [hW] at hs ⊢; rw [hBS] at hs; omega
    have hbaseW : base < W := by rw [hW] at hfit ⊢; rw [hBS] at hfit; omega
    have hwa0 : wadd 0 size = size := by
      show (0 + size) % W = size
      rw [Nat.zero_add]
      exact Nat.mod_eq_of_lt hsizeW
    rw [hwa0]
    have hnext : wsub size base = size + 4096 := by
      show (size + (W - base % W)) % W = size + 4096
      rw [Nat.mod_eq_of_lt hbaseW]
      have he : size + (W - base) = size + 4096 := by omega
      rw [he]
      apply Nat.mod_eq_of_lt
      rw [hW] at hs ⊢
      rw [hBS] at hs
      omega
    rw [hnext]
    rw [if_pos (by rw [hBS] at *; omega)]

/-- On a successful `alloc` with power-of-two alignment and no
address-space overflow, the returned address is the smallest multiple of
the alignment at or after `base + cursor`, and the post-call cursor is
`(address - base) + size`. -/
theorem alloc_ok_least (a : BumpAllocator) (size k p : Nat)
    (hinit : a.initialzed = true) (hk : k ≤ 64)
    (h1 : a.block.ptr + a.cursor + 2 ^ k ≤ W)
    (h2 : a.cursor + 2 ^ k + size ≤ W)
    (hok : (a.alloc size (2 ^ k)).1 = .ok p) :
    a.block.ptr + a.cursor ≤ p ∧ 2 ^ k ∣ p
    ∧ (∀ q, 2 ^ k ∣ q → a.block.ptr + a.cursor ≤ q → p ≤ q)
    ∧ (a.alloc size (2 ^ k)).2.cursor = (p - a.block.ptr) + size := by
  have hpk : 0 < 2 ^ k := Nat.pos_pow_of_pos k (by omega)
  rw [alloc_spec a size k hinit hk h1 h2] at hok ⊢
  by_cases hcond : a.block.size ≤
      (a.block.ptr + a.cursor + 2 ^ k - 1) / 2 ^ k * 2 ^ k + size - a.block.ptr
  · rw [if_pos hcond] at hok
    exact absurd hok (by simp)
  · rw [if_neg hcond] at hok ⊢
    have hp : (a.block.ptr + a.cursor + 2 ^ k - 1) / 2 ^ k * 2 ^ k = p := by
      simpa using hok
    have hge : a.block.ptr + a.cursor ≤
        (a.block.ptr + a.cursor + 2 ^ k - 1) / 2 ^ k * 2 ^ k := alignTarget_ge hpk
    refine ⟨by omega, ?_, ?_, ?_⟩
    · rw [← hp]
      exact alignTarget_dvd _ _
    · intro q hq hqge
      rw [← hp]
      exact alignTarget_min hpk hq hqge
    · simp only []
      omega

/-- Unfolding lemma for one step of `runAllocs`. -/
theorem runAllocs_cons (a : BumpAllocator) (size align : Nat)
    (rest : List (Nat × Nat)) :
    runAllocs a ((size, align) :: rest) =
      match a.alloc size align with
      | (.ok p, a') => some (p - a.block.ptr) :: runAllocs a' rest
      | (.error _, a') => none :: runAllocs a' rest := rfl

/-- The offsets produced by a sequence of `ValidReq` allocations do not
depend on where the system allocator placed the block. -/
theorem runAllocs_base_independent (reqs : List (Nat × Nat))
    (hreqs : ∀ r ∈ reqs, ValidReq r) :
    ∀ (c b₁ b₂ : Nat), ValidBase b₁ → ValidBase b₂ → c < BLOCK_SIZE →
    runAllocs
      { cursor := c, block := { ptr := b₁, size := BLOCK_SIZE },
        initialzed := true } reqs =
    runAllocs
      { cursor := c, block := { ptr := b₂, size := BLOCK_SIZE },
        initialzed := true } reqs := by
  induction reqs with
  | nil =>
    intro c b₁ b₂ _ _ _
    rfl
  | cons r rest ih =>
    intro c b₁ b₂ hb₁ hb₂ hc
    obtain ⟨size, align⟩ := r
    obtain ⟨⟨k, hk, halign⟩, hsize⟩ := hreqs (size, align) (List.mem_cons_self _ rest)
    simp only [] at halign hsize
    subst halign
    rw [runAllocs_cons, runAllocs_cons]
    rw [alloc_step b₁ c size k hb₁ hk hc hsize,
        alloc_step b₂ c size k hb₂ hk hc hsize]
    have ih' := ih (fun r hr => hreqs r (List.mem_cons_of_mem _ hr))
    by_cases hcond : BLOCK_SIZE ≤ (c + 2 ^ k - 1) / 2 ^ k * 2 ^ k + size
    · rw [if_pos hcond, if_pos hcond]
      simp only []
      rw [ih' c b₁ b₂ hb₁ hb₂ hc]
    · rw [if_neg hcond, if_neg hcond]
      simp only [Nat.add_sub_cancel_left]
      rw [ih' ((c + 2 ^ k - 1) / 2 ^ k * 2 ^ k + size) b₁ b₂ hb₁ hb₂ (by omega)]

/-- C1 (amended): on an initialized allocator, with a power-of-two
alignment and no address-space overflow, every successful
`allocate(size, align)` returns the smallest address at or after
`base + cursor` that is a multiple of `align`, and the post-call cursor is
`(address - base) + size`; and for alignments not exceeding
`MAX_SIZE` (so that they divide the block's guaranteed base alignment) the
offsets of a request sequence against a fresh allocator are fully
determined by the request sequence, independent of the block base. -/
theorem alloc_least_aligned_deterministic :
    (∀ (a : BumpAllocator) (size k p : Nat), a.initialzed = true → k ≤ 64 →
      a.block.ptr + a.cursor + 2 ^ k ≤ W → a.cursor + 2 ^ k + size ≤ W →
      (a.alloc size (2 ^ k)).1 = .ok p →
      a.block.ptr + a.cursor ≤ p ∧ 2 ^ k ∣ p
      ∧ (∀ q, 2 ^ k ∣ q → a.block.ptr + a.cursor ≤ q → p ≤ q)
      ∧ (a.alloc size (2 ^ k)).2.cursor = (p - a.block.ptr) + size)
    ∧ (∀ (b₁ b₂ : Nat) (reqs : List (Nat × Nat)), ValidBase b₁ → ValidBase b₂ →
      (∀ r ∈ reqs, ValidReq r) →
      runAllocs (BumpAllocator.fresh b₁) reqs =
        runAllocs (BumpAllocator.fresh b₂) reqs) := by
  constructor
  · intro a size k p hinit hk h1 h2 hok
    exact alloc_ok_least a size k p hinit hk h1 h2 hok
  · intro b₁ b₂ reqs hb₁ hb₂ hreqs
    exact runAllocs_base_independent reqs hreqs 0 b₁ b₂ hb₁ hb₂ (by decide)

/-- Witness for C1 (amended) at concrete inputs: the first 8-aligned
16-byte allocation on a fresh allocator at base 4096 returns address 4096
(the least 8-aligned address at or after the base) and cursor 16, and the
one-request sequence `[(16, 8)]` yields the same offsets at bases 4096 and
8192. -/
theorem alloc_least_aligned_deterministic_witness :
    ((BumpAllocator.fresh 4096).block.ptr + (BumpAllocator.fresh 4096).cursor ≤ 4096
      ∧ 2 ^ 3 ∣ 4096
      ∧ (∀ q, 2 ^ 3 ∣ q →
          (BumpAllocator.fresh 4096).block.ptr + (BumpAllocator.fresh 4096).cursor ≤ q →
          4096 ≤ q)
      ∧ ((BumpAllocator.fresh 4096).alloc 16 (2 ^ 3)).2.cursor =
          (4096 - (BumpAllocator.fresh 4096).block.ptr) + 16)
    ∧ runAllocs (BumpAllocator.fresh 4096) [(16, 8)] =
        runAllocs (BumpAllocator.fresh 8192) [(16, 8)] :=
  ⟨alloc_least_aligned_deterministic.1 (BumpAllocator.fresh 4096) 16 3 4096 rfl
      (by omega) (by decide) (by decide) (by decide),
   alloc_least_aligned_deterministic.2 4096 8192 [(16, 8)]
      ⟨by decide, by decide, by decide⟩ ⟨by decide, by decide, by decide⟩
      (by
        intro r hr
        rw [List.mem_singleton] at hr
        subst hr
        exact ⟨⟨3, by omega, by norm_num⟩, by decide⟩)⟩

/-- Counterexample to C1 as stated: alignment 8192 is a power of two
(hence a permitted argument), bases 4096 and 8192 are both addresses the
system allocator may return for the 4096-aligned block, yet the offset
sequences of the same request list differ — the first is `[none]`
(`NoSpace`), the second `[some 0]`.  The returned offsets are therefore
not fully determined by the request sequence. -/
theorem alloc_determinism_counterexample :
    ValidBase 4096 ∧ ValidBase 8192 ∧ is_power_of_two 8192 = true
    ∧ runAllocs (BumpAllocator.fresh 4096) [(16, 8192)] ≠
      runAllocs (BumpAllocator.fresh 8192) [(16, 8192)] :=
  ⟨⟨by decide, by decide, by decide⟩, ⟨by decide, by decide, by decide⟩,
   by decide, by decide⟩

/-! ## `reset` and the first-allocation offset (C6) -/

/-- `allocOffset` on a live block, via `alloc_step`. -/
theorem allocOffset_step (base c size k : Nat) (hb : ValidBase base)
    (hk : k ≤ 12) (hc : c < BLOCK_SIZE) (hs : size + 2 * BLOCK_SIZE ≤ W) :
    allocOffset
        { cursor := c, block := { ptr := base, size := BLOCK_SIZE },
          initialzed := true } size (2 ^ k) =
      if BLOCK_SIZE ≤ (c + 2 ^ k - 1) / 2 ^ k * 2 ^ k + size then none
      else some ((c + 2 ^ k - 1) / 2 ^ k * 2 ^ k) := by
  unfold allocOffset
  rw [alloc_step base c size k hb hk hc hs]
  by_cases hcond : BLOCK_SIZE ≤ (c + 2 ^ k - 1) / 2 ^ k * 2 ^ k + size
  · rw [if_pos hcond, if_pos hcond]
  · rw [if_neg hcond, if_neg hcond]
    simp only [Nat.add_sub_cancel_left]

/-- C6 (amended): for every initialized allocator with a live
`BLOCK_SIZE` block, calling `reset` and then `allocate(size, align)` —
with `align` a power of two not exceeding `MAX_SIZE` and `size` not
overflowing the address space — returns the same offset from base as the
very first `allocate(size, align)` with the same parameters on a freshly
initialized allocator, whatever base the fresh allocator received. -/
theorem reset_restores_first_alloc_offset (a : BumpAllocator) (b₂ size k : Nat)
    (hinit : a.initialzed = true) (hsz : a.block.size = BLOCK_SIZE)
    (hva : ValidBase a.block.ptr) (hvb : ValidBase b₂)
    (hk : k ≤ 12) (hs : size + 2 * BLOCK_SIZE ≤ W) :
    allocOffset (a.reset).2 size (2 ^ k) =
      allocOffset (BumpAllocator.fresh b₂) size (2 ^ k) := by
  have hreset : (a.reset).2 =
      { cursor := 0, block := { ptr := a.block.ptr, size := BLOCK_SIZE },
        initialzed := true } := by
    unfold BumpAllocator.reset
    rw [if_neg (by simp [hinit])]
    simp only []
    rw [← hsz, ← hinit]
  rw [hreset]
  show _ = allocOffset
      { cursor := 0, block := { ptr := b₂, size := BLOCK_SIZE },
        initialzed := true } size (2 ^ k)
  rw [allocOffset_step a.block.ptr 0 size k hva hk (by decide) hs,
      allocOffset_step b₂ 0 size k hvb hk (by decide) hs]

/-- Witness for C6 (amended) at concrete inputs: after allocating on a
fresh allocator at base 4096 and resetting, `alloc 24 8` returns the same
offset as the very first `alloc 24 8` on a fresh allocator at base
8192. -/
theorem reset_restores_first_alloc_offset_witness :
    allocOffset (((BumpAllocator.fresh 4096).alloc 16 8).2.reset).2 24 (2 ^ 3) =
      allocOffset (BumpAllocator.fresh 8192) 24 (2 ^ 3) :=
  reset_restores_first_alloc_offset ((BumpAllocator.fresh 4096).alloc 16 8).2
    8192 24 3 rfl rfl ⟨by decide, by decide, by decide⟩
    ⟨by decide, by decide, by decide⟩ (by omega) (by decide)

/-- Counterexample to C6 as stated: alignment 8192 is a power of two,
bases 8192 and 12288 are both addresses the system allocator may return,
yet after reset the allocator based at 8192 serves `allocate(32, 8192)` at
offset 0 while the very first `allocate(32, 8192)` on a fresh allocator
based at 12288 fails with `NoSpace` — the offsets are not identical. -/
theorem reset_offset_counterexample :
    ValidBase 8192 ∧ ValidBase 12288 ∧ is_power_of_two 8192 = true
    ∧ allocOffset (((BumpAllocator.fresh 8192).alloc 16 8).2.reset).2 32 8192 =
        some 0
    ∧ allocOffset (BumpAllocator.fresh 12288) 32 8192 = none :=
  ⟨⟨by decide, by decide, by decide⟩, ⟨by decide, by decide, by decide⟩,
   by decide, by decide, by decide⟩

/-! ## `BadRequest` and alignment validation (C5) -/

/-- The argument validation of the raw allocation routine
(`unsafe fn alloc` in `bump.rs`, used by `RawBlock::new` and hence by
`BumpAllocator::new`/`initialize`): `BadRequest` for a zero or
non-power-of-two alignment, or a size that would overflow the maximal
layout. -/
def rawAllocChecks (size align : Nat) : Except BumpError Unit :=
  if align = 0 then .error .BadRequest
  else if !(is_power_of_two align) then .error .BadRequest
  else if size > (W - 1) - (align - 1) then .error .BadRequest
  else .ok ()

/-- C5 (amended): the zero/non-power-of-two alignment validation returning
`BadRequest` lives in the raw block allocation routine; `BumpAllocator::alloc`
itself performs no alignment validation and never returns `BadRequest` —
its only errors are `Uninitialized` and `NoSpace`. -/
theorem alloc_never_badRequest :
    (∀ size align, align = 0 ∨ is_power_of_two align = false →
      rawAllocChecks size align = .error .BadRequest)
    ∧ (∀ (a : BumpAllocator) (size align : Nat) (e : BumpError),
      (a.alloc size align).1 = .error e →
      e = .NoSpace ∨ e = .Uninitialized) := by
  constructor
  · intro size align h
    unfold rawAllocChecks
    rcases h with h | h
    · rw [if_pos h]
    · rw [h]
      by_cases h0 : align = 0
      · rw [if_pos h0]
      · rw [if_neg h0]
        rfl
  · intro a size align e herr
    by_cases h1 : a.initialzed = false
    · simp [BumpAllocator.alloc, h1] at herr
      simp [herr]
    · by_cases h2 : a.block.size ≤
          wsub (wadd (align_up (wadd a.block.ptr a.cursor) align) size) a.block.ptr
      · simp [BumpAllocator.alloc, h1, h2] at herr
        simp [herr]
      · simp [BumpAllocator.alloc, h1, h2] at herr

/-- Witness for C5 (amended) at concrete inputs: the raw allocation
validation rejects alignment 3 with `BadRequest`, while
`BumpAllocator::alloc` reports `NoSpace` (never `BadRequest`) on an
exhausted arena. -/
theorem alloc_never_badRequest_witness :
    rawAllocChecks 16 3 = .error .BadRequest
    ∧ (BumpError.NoSpace = .NoSpace ∨ BumpError.NoSpace = .Uninitialized) :=
  ⟨alloc_never_badRequest.1 16 3 (Or.inr (by decide)),
   alloc_never_badRequest.2 (BumpAllocator.fresh 4096) 8192 1 .NoSpace (by decide)⟩

/-- Counterexample to C5 as stated: alignment 3 is neither zero nor a
power of two, yet `allocate(1, 3)` on an initialized allocator does not
fail with `BadRequest` — it succeeds, returning address 4096 (which is not
even a multiple of 3). -/
theorem alloc_badRequest_counterexample :
    ValidBase 4096 ∧ (3 ≠ 0) ∧ is_power_of_two 3 = false
    ∧ ((BumpAllocator.fresh 4096).alloc 1 3).1 = .ok 4096
    ∧ ¬ (3 ∣ 4096) :=
  ⟨⟨by decide, by decide, by decide⟩, by decide, by decide, by decide, by decide⟩

/-! ## Reachable allocator states (C7) -/

/-- The allocator states reachable through the public `BumpAllocator`
operations of `bump.rs`: construction by `new`, construction by `uninit`,
`initialize`, `alloc`, `alloc_aligned` and `reset` (error paths of `alloc`
and `reset` return the unchanged state; a failed `initialize` leaves the
state untouched and so stays inside the relation trivially). -/
inductive Reachable : BumpAllocator → Prop where
  | new (base : Nat) : ValidBase base → Reachable (BumpAllocator.fresh base)
  | uninit : Reachable BumpAllocator.uninit
  | initBlock (a : BumpAllocator) (base : Nat) : Reachable a →
      ValidBase base → Reachable (a.initBlock base)
  | alloc (a : BumpAllocator) (size align : Nat) : Reachable a →
      Reachable (a.alloc size align).2
  | allocAligned (a : BumpAllocator) (size : Nat) : Reachable a →
      Reachable (a.alloc_aligned size).2
  | reset (a : BumpAllocator) : Reachable a → Reachable (a.reset).2

/-- One `alloc` step preserves `cursor ≤ block.size` (for arbitrary size
and alignment, wrapped arithmetic included: the commit is guarded by
`next < block.size`). -/
theorem alloc_preserves_cursor_le (a : BumpAllocator) (size align : Nat)
    (h : a.cursor ≤ a.block.size) :
    (a.alloc size align).2.cursor ≤ (a.alloc size align).2.block.size := by
  by_cases h1 : a.initialzed = false
  · simp [BumpAllocator.alloc, h1, h]
  · by_cases h2 : a.block.size ≤
        wsub (wadd (align_up (wadd a.block.ptr a.cursor) align) size) a.block.ptr
    · simp [BumpAllocator.alloc, h1, h2, h]
    · simp [BumpAllocator.alloc, h1, h2]
      omega

/-- C7: every reachable `BumpAllocator` state satisfies the invariant
`0 ≤ cursor ≤ block.size`. -/
theorem cursor_invariant (a : BumpAllocator) (h : Reachable a) :
    0 ≤ a.cursor ∧ a.cursor ≤ a.block.size := by
  refine ⟨Nat.zero_le _, ?_⟩
  induction h with
  | new base hb => exact Nat.zero_le _
  | uninit => exact Nat.le_refl 0
  | initBlock a base ha hb ih => exact Nat.zero_le _
  | alloc a size align ha ih => exact alloc_preserves_cursor_le a size align ih
  | allocAligned a size ha ih => exact alloc_preserves_cursor_le a size _ ih
  | reset a ha ih =>
      by_cases h1 : a.initialzed = false
      · simpa [BumpAllocator.reset, h1] using ih
      · simp [BumpAllocator.reset, h1]

/-- Witness for C7 at a concrete input: the state reached by allocating
16 bytes at alignment 8 from a fresh allocator at base 4096 satisfies the
invariant. -/
theorem cursor_invariant_witness :
    0 ≤ ((BumpAllocator.fresh 4096).alloc 16 8).2.cursor
    ∧ ((BumpAllocator.fresh 4096).alloc 16 8).2.cursor ≤
      ((BumpAllocator.fresh 4096).alloc 16 8).2.block.size :=
  cursor_invariant _
    (Reachable.alloc _ 16 8 (Reachable.new 4096 (by exact ⟨by decide, by decide, by decide⟩)))

/-! ## The per-plugin event-dispatch phase of a lockstep tick
(`src/gers_app/src/main.rs`) -/

/-- Outcome of calling a guest hook through the runtime: a returned value,
or a guest-side trap (`Err(RuntimeError)`), which the host catches and
logs. -/
inductive HookResult (α : Type) where
  | ret (val : α)
  | trap
deriving DecidableEq

/-- The inputs that determine what one plugin's slice of a dispatch tick
does: which hooks the plugin exports (`none` = hook absent) and, for each
hook and runtime query the host would perform this tick, its outcome.
`allocHook` carries the wasm pointer the `event-alloc` hook returns
(0 is the null sentinel); `memoryOk` is whether `plugin.memory()` is `Ok`;
`derefOk` is whether `WasmPtr::deref_mut(memory, 0, data_size)` returns a
slice; `sliceFits` is whether `align_to_mut::<HelloEvent>` on that slice
yields a nonempty middle. -/
structure PluginTick where
  resetHook : Option (HookResult Int)
  allocHook : Option (HookResult Nat)
  memoryOk : Bool
  derefOk : Bool
  sliceFits : Bool
  updateHookPresent : Bool
deriving DecidableEq

/-- The externally observable actions of one plugin's slice of a dispatch
tick: whether a reset failure was logged, whether the event payload was
written into guest memory, and the pointer passed to the `event-update`
hook if it was invoked (`none` = not invoked). -/
structure TickTrace where
  resetFailureLogged : Bool
  payloadWritten : Bool
  updateArg : Option Nat
deriving DecidableEq

/-- The per-plugin body of the lockstep dispatch loop in
`src/gers_app/src/main.rs` (inside `while lockstep_timer >= LOCKSTEP_INTEVAL`):
first the reset phase (`event_reset_fn`, logging `Ok(error_id)` with
`error_id != 0` and trapped calls), then — unconditionally, whatever the
reset outcome was — the event phase: call `event_alloc2_fn`, `continue` on
a null pointer, log on deref failure, skip silently on a size/alignment
mismatch of the transmuted slice, and otherwise write the payload and call
`event_update_fn` with the wasm pointer.  The function is total: every
guest failure is logged or skipped, never a host crash. -/
def dispatchPlugin (p : PluginTick) : TickTrace :=
  let resetFailureLogged :=
    match p.resetHook with
    | none => false
    | some (.ret v) => if v = 0 then false else true
    | some .trap => true
  match p.allocHook, p.memoryOk with
  | some (.ret wasmPtr), true =>
    if wasmPtr = 0 then
      { resetFailureLogged := resetFailureLogged, payloadWritten := false,
        updateArg := none }
    else if p.derefOk then
      if p.sliceFits then
        { resetFailureLogged := resetFailureLogged, payloadWritten := true,
          updateArg := if p.updateHookPresent then some wasmPtr else none }
      else
        { resetFailureLogged := resetFailureLogged, payloadWritten := false,
          updateArg := none }
    else
      { resetFailureLogged := resetFailureLogged, payloadWritten := false,
        updateArg := none }
  | some .trap, true =>
      { resetFailureLogged := resetFailureLogged, payloadWritten := false,
        updateArg := none }
  | _, _ =>
      { resetFailureLogged := resetFailureLogged, payloadWritten := false,
        updateArg := none }

/-- C8 (amended): in every dispatch tick, for every plugin whose
event-reset hook is present and returns a non-zero status code, the host
logs the failure without crashing and then proceeds with that plugin's
event-dispatch phase exactly as it would have after a successful reset —
the phase is not skipped. -/
theorem reset_failure_logged_not_skipped (p : PluginTick) (v : Int)
    (hp : p.resetHook = some (.ret v)) (hv : v ≠ 0) :
    (dispatchPlugin p).resetFailureLogged = true
    ∧ (dispatchPlugin p).payloadWritten =
        (dispatchPlugin { p with resetHook := some (.ret 0) }).payloadWritten
    ∧ (dispatchPlugin p).updateArg =
        (dispatchPlugin { p with resetHook := some (.ret 0) }).updateArg := by
  obtain ⟨rh, ah, mo, dk, sf, uh⟩ := p
  simp only [] at hp
  subst hp
  rcases ah with _ | res
  · simp [dispatchPlugin, hv]
  · rcases res with w | _
    · by_cases hm : mo <;> by_cases hw : w = 0 <;> by_cases hd : dk <;>
        by_cases hs : sf <;> simp [dispatchPlugin, hv, hm, hw, hd, hs]
    · by_cases hm : mo <;> simp [dispatchPlugin, hv, hm]

/-- Witness for C8 (amended) at a concrete input: a plugin whose reset
hook returns 1 and whose alloc hook returns pointer 64 gets the failure
logged and the event phase executed as if reset had succeeded. -/
theorem reset_failure_logged_not_skipped_witness :
    (dispatchPlugin
        { resetHook := some (.ret 1), allocHook := some (.ret 64),
          memoryOk := true, derefOk := true, sliceFits := true,
          updateHookPresent := true }).resetFailureLogged = true
    ∧ (dispatchPlugin
        { resetHook := some (.ret 1), allocHook := some (.ret 64),
          memoryOk := true, derefOk := true, sliceFits := true,
          updateHookPresent := true }).payloadWritten =
      (dispatchPlugin
        { resetHook := some (.ret 0), allocHook := some (.ret 64),
          memoryOk := true, derefOk := true, sliceFits := true,
          updateHookPresent := true }).payloadWritten
    ∧ (dispatchPlugin
        { resetHook := some (.ret 1), allocHook := some (.ret 64),
          memoryOk := true, derefOk := true, sliceFits := true,
          updateHookPresent := true }).updateArg =
      (dispatchPlugin
        { resetHook := some (.ret 0), allocHook := some (.ret 64),
          memoryOk := true, derefOk := true, sliceFits := true,
          updateHookPresent := true }).updateArg :=
  reset_failure_logged_not_skipped
    { resetHook := some (.ret 1), allocHook := some (.ret 64),
      memoryOk := true, derefOk := true, sliceFits := true,
      updateHookPresent := true } 1 rfl (by decide)

/-- Counterexample to C8 as stated: a plugin whose reset hook is present
and returns the non-zero status 1 has the failure logged, but its
subsequent event-dispatch phase is NOT skipped — the payload is written
and the event-update hook is invoked with pointer 64 in the same tick. -/
theorem reset_failure_skip_counterexample :
    (dispatchPlugin
        { resetHook := some (.ret 1), allocHook := some (.ret 64),
          memoryOk := true, derefOk := true, sliceFits := true,
          updateHookPresent := true }).resetFailureLogged = true
    ∧ (dispatchPlugin
        { resetHook := some (.ret 1), allocHook := some (.ret 64),
          memoryOk := true, derefOk := true, sliceFits := true,
          updateHookPresent := true }).payloadWritten = true
    ∧ (dispatchPlugin
        { resetHook := some (.ret 1), allocHook := some (.ret 64),
          memoryOk := true, derefOk := true, sliceFits := true,
          updateHookPresent := true }).updateArg = some 64 := by
  decide

/-- C10: in every dispatch tick the host never invokes a plugin's
event-update hook with the null pointer; and whenever the event-alloc hook
returns the null sentinel, or the guest-memory slice cannot be
dereferenced, or it is too small/misaligned for the event record, both the
payload write and the event-update call are skipped for that plugin for
that tick. -/
theorem update_hook_never_null (p : PluginTick) :
    (dispatchPlugin p).updateArg ≠ some 0
    ∧ ((p.allocHook = some (.ret 0) ∨ p.derefOk = false ∨ p.sliceFits = false) →
      (dispatchPlugin p).payloadWritten = false
      ∧ (dispatchPlugin p).updateArg = none) := by
  obtain ⟨rh, ah, mo, dk, sf, uh⟩ := p
  rcases ah with _ | res
  · constructor
    · simp [dispatchPlugin]
    · intro _
      simp [dispatchPlugin]
  · rcases res with w | _
    · constructor
      · by_cases hm : mo <;> by_cases hw : w = 0 <;> by_cases hd : dk <;>
          by_cases hs : sf <;> by_cases hu : uh <;>
          simp [dispatchPlugin, hm, hw, hd, hs, hu]
      · intro hcase
        have hskip : w = 0 ∨ dk = false ∨ sf = false := by
          simpa using hcase
        rcases hskip with hw | hd | hs
        · by_cases hm : mo <;> simp [dispatchPlugin, hm, hw]
        · by_cases hm : mo <;> by_cases hw : w = 0 <;>
            simp [dispatchPlugin, hm, hw, hd]
        · by_cases hm : mo <;> by_cases hw : w = 0 <;> by_cases hd : dk <;>
            simp [dispatchPlugin, hm, hw, hd, hs]
    · constructor
      · by_cases hm : mo <;> simp [dispatchPlugin, hm]
      · intro _
        by_cases hm : mo <;> simp [dispatchPlugin, hm]

/-- Witness for C10 at a concrete input: a plugin whose alloc hook returns
the null sentinel has no payload written and no event-update call. -/
theorem update_hook_never_null_witness :
    (dispatchPlugin
        { resetHook := none, allocHook := some (.ret 0),
          memoryOk := true, derefOk := true, sliceFits := true,
          updateHookPresent := true }).payloadWritten = false
    ∧ (dispatchPlugin
        { resetHook := none, allocHook := some (.ret 0),
          memoryOk := true, derefOk := true, sliceFits := true,
          updateHookPresent := true }).updateArg = none :=
  (update_hook_never_null
    { resetHook := none, allocHook := some (.ret 0),
      memoryOk := true, derefOk := true, sliceFits := true,
      updateHookPresent := true }).2 (Or.inl rfl)

/-! ## Event type tags and the guest event-update hook
(`src/gers_events/src/lib.rs`, `src/gers_core/src/lib.rs`) -/

/-- `EventType` from `gers_events`: `NoOp = 0`, `Hello = 1`. -/
inductive EventType where
  | NoOp
  | Hello
deriving DecidableEq

/-- `impl From<i32> for EventType`:
`match value { 1 => Hello, _ => NoOp }`. -/
def EventType.ofI32 (value : Int) : EventType :=
  if value = 1 then .Hello else .NoOp

/-- `gers_error_t` from `gers_core`: `Success = 0`, `GenericError = 1`. -/
inductive gers_error_t where
  | Success
  | GenericError
deriving DecidableEq

/-- The guest-side state `__gers_event_update` reads: the base address of
the `EVENT_DATA` buffer, and — abstracted as an oracle, since the claims
settled here never reach it — whether the `align_to::<HelloEvent>`
reinterpretation of the sliced buffer yields a nonempty slice. -/
structure GuestState where
  eventDataPtr : Nat
  transmuteOk : Bool

/-- `__gers_event_update` from `gers_core`, returning the status code and
whether `hello_handler` was invoked.  The `NoOp` arm returns `Success`
immediately; the `Hello` arm checks the pointer for null, for pointing
before the buffer (`offset_from < 0`), and for a failed transmute, each
returning `GenericError`, before dispatching to `hello_handler`. -/
def __gers_event_update (st : GuestState) (event_type : Int) (data_ptr : Nat) :
    gers_error_t × Bool :=
  match EventType.ofI32 event_type with
  | .NoOp => (.Success, false)
  | .Hello =>
    if data_ptr = 0 then (.GenericError, false)
    else if data_ptr < st.eventDataPtr then (.GenericError, false)
    else if st.transmuteOk then (.Success, true)
    else (.GenericError, false)

/-- C9: every `i32` value other than the known type tags 0 (`NoOp`) and
1 (`Hello`) decodes to the no-op variant rather than an error, and the
guest's event-update hook returns success on it without invoking the
payload handler. -/
theorem unknown_tag_noop (v : Int)
    (h32lo : -(2 ^ 31) ≤ v) (h32hi : v < 2 ^ 31)
    (h0 : v ≠ 0) (h1 : v ≠ 1) :
    EventType.ofI32 v = .NoOp
    ∧ ∀ (st : GuestState) (ptr : Nat),
      __gers_event_update st v ptr = (.Success, false) := by
  have hdec : EventType.ofI32 v = .NoOp := by
    unfold EventType.ofI32
    rw [if_neg h1]
  refine ⟨hdec, fun st ptr => ?_⟩
  unfold __gers_event_update
  rw [hdec]

/-- Witness for C9 at a concrete input: the unknown tag 7 decodes to
`NoOp` and the hook returns success without a handler call. -/
theorem unknown_tag_noop_witness :
    EventType.ofI32 7 = .NoOp
    ∧ ∀ (st : GuestState) (ptr : Nat),
      __gers_event_update st 7 ptr = (.Success, false) :=
  unknown_tag_noop 7 (by decide) (by decide) (by decide) (by decide)

end Gers
